import Mathlib

/-!
Verification of the device-log relay server (`src/pm.ts`, with the
`src/unnamed/part_002` variant for the alternate attach path).

The server keeps, per device id, a `DeviceState` made of a fixed-capacity
ring buffer of recent lines, a pending-line queue drained by a periodic
batch timer, and the set of attached WebSocket consumers.  The definitions
below are a shallow embedding of the handlers in the source; side effects
(socket sends, process spawn/kill, timer clears) are reified as `Action`
values returned alongside the updated state.
-/

namespace LogRelay

/-- `LOG_BUFFER_SIZE` from `pm.ts` (max lines in memory per device). -/
def LOG_BUFFER_SIZE : Nat := 1000

/-- `MAX_WS_BUFFERED` from `pm.ts` (5 MB per socket). -/
def MAX_WS_BUFFERED : Nat := 5000000

/-- One step of the ring-buffer insertion in the `rl.on('line')` handler
(`pm.ts` lines 43-44): `buffer.push(line); if (buffer.length > cap) buffer.shift();`,
with the capacity `LOG_BUFFER_SIZE` abstracted as a parameter. -/
def ringPush (cap : Nat) (buf : List String) (line : String) : List String :=
  let b := buf ++ [line]
  if cap < b.length then b.drop 1 else b

/-- Closed form for iterated `ringPush`: starting from a buffer within
capacity, pushing `lines` keeps the last `cap` elements of the
concatenation (truncated `Nat` subtraction makes this also cover the
no-eviction case). -/
theorem ringPush_foldl (cap : Nat) :
    ∀ (lines buf : List String), buf.length ≤ cap →
      lines.foldl (ringPush cap) buf =
        (buf ++ lines).drop (buf.length + lines.length - cap)
  | [], buf, h => by
      simp [List.foldl, Nat.sub_eq_zero_of_le h]
  | l :: ls, buf, h => by
      rw [List.foldl_cons]
      by_cases hc : buf.length + 1 ≤ cap
      · have hstep : ringPush cap buf l = buf ++ [l] := by
          simp only [ringPush, List.length_append, List.length_singleton]
          rw [if_neg (by omega)]
        rw [hstep, ringPush_foldl cap ls (buf ++ [l]) (by simpa using hc)]
        have harr : buf ++ [l] ++ ls = buf ++ l :: ls := by simp
        have hidx : (buf ++ [l]).length + ls.length - cap
            = buf.length + (l :: ls).length - cap := by
          simp only [List.length_append, List.length_singleton, List.length_cons,
            List.length_nil]
          omega
        rw [harr, hidx]
      · have hbc : buf.length = cap := by omega
        have hstep : ringPush cap buf l = (buf ++ [l]).drop 1 := by
          simp only [ringPush, List.length_append, List.length_singleton]
          rw [if_pos (by omega)]
        have hlen : ((buf ++ [l]).drop 1).length ≤ cap := by
          simp only [List.length_drop, List.length_append, List.length_singleton]
          omega
        rw [hstep, ringPush_foldl cap ls ((buf ++ [l]).drop 1) hlen]
        have h1 : (buf ++ [l]).drop 1 ++ ls = (buf ++ l :: ls).drop 1 := by
          cases buf <;> simp
        have hidx : 1 + (((buf ++ [l]).drop 1).length + ls.length - cap)
            = buf.length + (l :: ls).length - cap := by
          simp only [List.length_drop, List.length_append, List.length_singleton,
            List.length_cons, List.length_nil]
          omega
        rw [h1, List.drop_drop, hidx]

/-- C2: for every sequence of `N` pushes into a ring buffer of capacity `C`
with `N > C`, the final buffer is exactly the last `C` pushed elements in
push order (length `C`); after every push the buffer holds at most `C`
elements; and a push at capacity evicts exactly the oldest element. -/
theorem ring_buffer_last_C (cap : Nat) (lines : List String)
    (h : cap < lines.length) :
    lines.foldl (ringPush cap) [] = lines.drop (lines.length - cap)
    ∧ (lines.foldl (ringPush cap) []).length = cap
    ∧ (∀ k : Nat, ((lines.take k).foldl (ringPush cap) []).length ≤ cap)
    ∧ (∀ (buf : List String) (line : String), buf.length = cap →
        ringPush cap buf line = (buf ++ [line]).drop 1) := by
  have hmain : lines.foldl (ringPush cap) [] = lines.drop (lines.length - cap) := by
    have := ringPush_foldl cap lines [] (Nat.zero_le cap)
    simpa using this
  refine ⟨hmain, ?_, ?_, ?_⟩
  · rw [hmain, List.length_drop]
    omega
  · intro k
    have := ringPush_foldl cap (lines.take k) [] (Nat.zero_le cap)
    simp only [List.nil_append, Nat.zero_add] at this
    rw [this, List.length_drop]
    omega
  · intro buf line hbuf
    simp only [ringPush, List.length_append, List.length_singleton]
    rw [if_pos (by omega)]

/-- Witness for C2 at capacity 2 and four pushed lines. -/
theorem ring_buffer_last_C_witness :
    (["a", "b", "c", "d"] : List String).foldl (ringPush 2) []
      = (["a", "b", "c", "d"] : List String).drop (4 - 2) :=
  (ring_buffer_last_C 2 ["a", "b", "c", "d"] (by decide)).1

/-- Messages the server sends to a consumer socket, one constructor per
`event` tag appearing in `pm.ts`. -/
inductive ServerMsg where
  | logBatch (lines : List String)
  | logError (message : String)
  | logStop (udid : String)
  | logCleared (udid : String)
  | errorMsg (message : String)
deriving DecidableEq

/-- Reified side effects of the handlers: socket sends and closes, process
spawn/kill, batch-timer clear, readline-interface close. -/
inductive Action where
  | send (sock : Nat) (msg : ServerMsg)
  | closeSock (sock : Nat)
  | spawnProc (udid : String)
  | killProc (udid : String)
  | clearTimer (udid : String)
  | closeReader (udid : String)
deriving DecidableEq

/-- The `DeviceState` record of `pm.ts`: ring buffer of recent lines,
pending-line queue for the next batch, attached sockets (insertion order,
modelling the JS `Set`).  The opaque `process` and `batchTimer` handles are
not data; signals to them appear as `Action`s. -/
structure DeviceState where
  buffer : List String
  pending : List String
  sockets : List Nat
deriving DecidableEq

/-- The `devices` map (`Map<string, DeviceState>`), as an association list
in insertion order. -/
abbrev Registry := List (String × DeviceState)

/-- `devices.get(udid)`. -/
def lookupDev : Registry → String → Option DeviceState
  | [], _ => none
  | (k, v) :: rest, udid => if k = udid then some v else lookupDev rest udid

/-- `devices.delete(udid)`. -/
def delDev : Registry → String → Registry
  | [], _ => []
  | (k, v) :: rest, udid =>
    if k = udid then delDev rest udid else (k, v) :: delDev rest udid

/-- In-place mutation of the state stored under a key (the JS handlers
mutate the `DeviceState` object held by the map). -/
def updDev : Registry → String → DeviceState → Registry
  | [], _, _ => []
  | (k, v) :: rest, udid, st =>
    if k = udid then (udid, st) :: updDev rest udid st
    else (k, v) :: updDev rest udid st

/-- `state.sockets.add(ws)` (a JS `Set` ignores duplicates). -/
def addSock (socks : List Nat) (ws : Nat) : List Nat :=
  if socks.contains ws then socks else socks ++ [ws]

/-- `state.sockets.delete(ws)`. -/
def delSock (socks : List Nat) (ws : Nat) : List Nat :=
  socks.filter (fun s => s != ws)

/-- The fresh `DeviceState` built in `startIosStreaming`. -/
def freshState : DeviceState := { buffer := [], pending := [], sockets := [] }

/-- `startIosStreaming(udid)` (`pm.ts` lines 26-39): return early when a
session exists; otherwise spawn the process (whose success or failure is
the environment parameter `spawnRes`) and register the fresh state.  On
spawn failure the error propagates before `devices.set` runs. -/
def startIosStreaming (spawnRes : Except String Unit) (r : Registry)
    (udid : String) : Except String Unit × Registry × List Action :=
  if (lookupDev r udid).isSome then (.ok (), r, [])
  else
    match spawnRes with
    | .error e => (.error e, r, [])
    | .ok _ => (.ok (), r ++ [(udid, freshState)], [.spawnProc udid])

/-- The `rl.on('line')` handler (`pm.ts` lines 42-46): push into the ring
buffer and append to the pending queue. -/
def onLine (st : DeviceState) (line : String) : DeviceState :=
  { st with buffer := ringPush LOG_BUFFER_SIZE st.buffer line,
            pending := st.pending ++ [line] }

/-- `ws.readyState === WebSocket.OPEN && ws.bufferedAmount < MAX_WS_BUFFERED`,
with the socket attributes supplied by the environment. -/
def sendOk (wsOpen : Nat → Bool) (wsBuf : Nat → Nat) (ws : Nat) : Bool :=
  wsOpen ws && decide (wsBuf ws < MAX_WS_BUFFERED)

/-- One tick of `state.batchTimer` (`pm.ts` lines 63-72): do nothing when
the pending queue is empty, otherwise `splice(0)` the queue and send the
batch to every socket that is open and under the buffered-amount cap. -/
def batchTick (wsOpen : Nat → Bool) (wsBuf : Nat → Nat) (st : DeviceState) :
    DeviceState × List Action :=
  if st.pending.isEmpty then (st, [])
  else
    ({ st with pending := [] },
     (st.sockets.filter (sendOk wsOpen wsBuf)).map
       (fun ws => .send ws (.logBatch st.pending)))

/-- The `teardown()` closure (`pm.ts` lines 74-78): clear the batch timer,
close the readline interface, delete the registry entry. -/
def teardown (r : Registry) (udid : String) : Registry × List Action :=
  (delDev r udid, [.clearTimer udid, .closeReader udid])

/-- The `proc.on('error')` handler (`pm.ts` lines 49-54): send `log.error`
to every socket of the captured state, then run teardown.  `st` is the
closure-captured `DeviceState`. -/
def handleProcError (r : Registry) (udid : String) (st : DeviceState)
    (e : String) : Registry × List Action :=
  let td := teardown r udid
  (td.1, st.sockets.map (fun ws => Action.send ws (.logError e)) ++ td.2)

/-- The `proc.on('close')` handler (`pm.ts` lines 55-60): send `log.stop`
to every socket of the captured state, then run teardown. -/
def handleProcClose (r : Registry) (udid : String) (st : DeviceState) :
    Registry × List Action :=
  let td := teardown r udid
  (td.1, st.sockets.map (fun ws => Action.send ws (.logStop udid)) ++ td.2)

/-- The `wss.on('connection')` handler (`pm.ts` lines 87-110): reject a
missing `udid` parameter; otherwise ensure the session (propagating a spawn
failure as `log.error` plus close), add the socket, and send the current
buffer as an initial backlog batch when non-empty. -/
def handleConnection (spawnRes : Except String Unit) (r : Registry)
    (ws : Nat) (udid? : Option String) : Registry × List Action :=
  match udid? with
  | none => (r, [.send ws (.errorMsg "Missing udid parameter"), .closeSock ws])
  | some udid =>
    match startIosStreaming spawnRes r udid with
    | (.error e, r1, acts) => (r1, acts ++ [.send ws (.logError e), .closeSock ws])
    | (.ok _, r1, acts) =>
      match lookupDev r1 udid with
      | none => (r1, acts)
      | some st =>
        let backlog : List Action :=
          if st.buffer.isEmpty then [] else [.send ws (.logBatch st.buffer)]
        (updDev r1 udid { st with sockets := addSock st.sockets ws },
         acts ++ backlog)

/-- The `ws.on('message')` clear handler (`pm.ts` lines 112-120): on a
`clear` event, empty the session's shared buffer and acknowledge with
`log.cleared` to the requesting socket only. -/
def handleClearMsg (r : Registry) (udid : String) (ws : Nat) :
    Registry × List Action :=
  match lookupDev r udid with
  | none => (r, [])
  | some st =>
    (updDev r udid { st with buffer := [] }, [.send ws (.logCleared udid)])

/-- The `ws.on('close')` handler (`pm.ts` lines 122-130): remove the socket;
when no sockets remain, kill the process, clear the batch timer and delete
the registry entry. -/
def handleClose (r : Registry) (udid : String) (ws : Nat) :
    Registry × List Action :=
  match lookupDev r udid with
  | none => (r, [])
  | some st =>
    let socks := delSock st.sockets ws
    if socks.isEmpty then
      (delDev r udid, [.killProc udid, .clearTimer udid])
    else
      (updDev r udid { st with sockets := socks }, [])

/-- `startStreaming(serial)` from `src/unnamed/part_002` (lines 28-38 and
82-85): the fresh state is registered before `openLogcat` is awaited, and
the `catch` block deletes the entry again before rethrowing. -/
def startStreamingA (openRes : Except String Unit) (r : Registry)
    (serial : String) : Except String Unit × Registry × List Action :=
  if (lookupDev r serial).isSome then (.ok (), r, [])
  else
    match openRes with
    | .error e => (.error e, delDev (r ++ [(serial, freshState)]) serial, [])
    | .ok _ => (.ok (), r ++ [(serial, freshState)], [.spawnProc serial])

/-- A sequence of connection requests (spawn outcome, socket, optional
device id) folded through the connection handler. -/
def runConns (r : Registry) (conns : List (Except String Unit × Nat × Option String)) :
    Registry :=
  conns.foldl (fun acc c => (handleConnection c.1 acc c.2.1 c.2.2).1) r

/-- At most one registry entry per device id. -/
def keysNodup (r : Registry) : Prop := (r.map Prod.fst).Nodup

theorem lookupDev_append_of_none : ∀ (r l : Registry) (u : String),
    lookupDev r u = none → lookupDev (r ++ l) u = lookupDev l u
  | [], _, _, _ => rfl
  | (k, v) :: rest, l, u, h => by
      by_cases hk : k = u
      · simp [lookupDev, hk] at h
      · simp only [lookupDev, if_neg hk] at h
        simp only [List.cons_append, lookupDev, if_neg hk]
        exact lookupDev_append_of_none rest l u h

theorem lookupDev_updDev_self : ∀ (r : Registry) (u : String)
    (st st' : DeviceState), lookupDev r u = some st →
      lookupDev (updDev r u st') u = some st'
  | [], _, _, _, h => by simp [lookupDev] at h
  | (k, v) :: rest, u, st, st', h => by
      by_cases hk : k = u
      · subst hk
        simp [updDev, lookupDev]
      · simp only [lookupDev, if_neg hk] at h
        simp only [updDev, if_neg hk, lookupDev, if_neg hk]
        exact lookupDev_updDev_self rest u st st' h

theorem lookupDev_updDev_ne : ∀ (r : Registry) (u v : String)
    (st' : DeviceState), v ≠ u →
      lookupDev (updDev r u st') v = lookupDev r v
  | [], _, _, _, _ => rfl
  | (k, w) :: rest, u, v, st', h => by
      by_cases hk : k = u
      · subst hk
        simp only [updDev, if_pos rfl, lookupDev, if_neg (Ne.symm h)]
        exact lookupDev_updDev_ne rest k v st' h
      · simp only [updDev, if_neg hk, lookupDev]
        by_cases hkv : k = v
        · simp [hkv]
        · rw [if_neg hkv, if_neg hkv]
          exact lookupDev_updDev_ne rest u v st' h

theorem lookupDev_delDev_self : ∀ (r : Registry) (u : String),
    lookupDev (delDev r u) u = none
  | [], _ => rfl
  | (k, v) :: rest, u => by
      by_cases hk : k = u
      · subst hk
        simp only [delDev, if_pos rfl]
        exact lookupDev_delDev_self rest k
      · simp only [delDev, if_neg hk, lookupDev, if_neg hk]
        exact lookupDev_delDev_self rest u

theorem lookupDev_delDev_ne : ∀ (r : Registry) (u v : String), v ≠ u →
    lookupDev (delDev r u) v = lookupDev r v
  | [], _, _, _ => rfl
  | (k, w) :: rest, u, v, h => by
      by_cases hk : k = u
      · subst hk
        have h1 : delDev ((k, w) :: rest) k = delDev rest k := by simp [delDev]
        have h2 : lookupDev ((k, w) :: rest) v = lookupDev rest v := by
          simp only [lookupDev]
          rw [if_neg (fun hkv : k = v => h hkv.symm)]
        rw [h1, h2]
        exact lookupDev_delDev_ne rest k v h
      · simp only [delDev, if_neg hk, lookupDev]
        by_cases hkv : k = v
        · simp [hkv]
        · rw [if_neg hkv, if_neg hkv]
          exact lookupDev_delDev_ne rest u v h

theorem delDev_of_lookup_none : ∀ (r : Registry) (u : String),
    lookupDev r u = none → delDev r u = r
  | [], _, _ => rfl
  | (k, v) :: rest, u, h => by
      by_cases hk : k = u
      · simp [lookupDev, hk] at h
      · simp only [lookupDev, if_neg hk] at h
        simp only [delDev, if_neg hk]
        rw [delDev_of_lookup_none rest u h]

theorem delDev_idem (r : Registry) (u : String) :
    delDev (delDev r u) u = delDev r u :=
  delDev_of_lookup_none _ u (lookupDev_delDev_self r u)

theorem delDev_append : ∀ (r l : Registry) (u : String),
    delDev (r ++ l) u = delDev r u ++ delDev l u
  | [], _, _ => rfl
  | (k, v) :: rest, l, u => by
      by_cases hk : k = u
      · simp [delDev, hk, delDev_append rest l u]
      · simp [delDev, hk, delDev_append rest l u]

theorem keys_updDev : ∀ (r : Registry) (u : String) (st : DeviceState),
    (updDev r u st).map Prod.fst = r.map Prod.fst
  | [], _, _ => rfl
  | (k, v) :: rest, u, st => by
      by_cases hk : k = u
      · subst hk
        simp [updDev, keys_updDev rest k st]
      · simp [updDev, hk, keys_updDev rest u st]

theorem not_mem_keys_of_lookup_none : ∀ (r : Registry) (u : String),
    lookupDev r u = none → u ∉ r.map Prod.fst
  | [], _, _ => by simp
  | (k, v) :: rest, u, h => by
      by_cases hk : k = u
      · simp [lookupDev, hk] at h
      · simp only [lookupDev, if_neg hk] at h
        simp only [List.map_cons, List.mem_cons, not_or]
        exact ⟨fun hu => hk hu.symm, not_mem_keys_of_lookup_none rest u h⟩

theorem pending_foldl_onLine : ∀ (lines : List String) (st : DeviceState),
    (lines.foldl onLine st).pending = st.pending ++ lines
  | [], st => by simp
  | l :: ls, st => by
      rw [List.foldl_cons, pending_foldl_onLine ls]
      simp [onLine]

theorem startIos_existing (spawnRes : Except String Unit) (r : Registry)
    (u : String) (h : (lookupDev r u).isSome) :
    startIosStreaming spawnRes r u = (.ok (), r, []) := by
  simp [startIosStreaming, h]

theorem startIos_fail (e : String) (r : Registry) (u : String)
    (h : lookupDev r u = none) :
    startIosStreaming (.error e) r u = (.error e, r, []) := by
  simp [startIosStreaming, h]

theorem startIos_fresh (r : Registry) (u : String)
    (h : lookupDev r u = none) :
    startIosStreaming (.ok ()) r u
      = (.ok (), r ++ [(u, freshState)], [.spawnProc u]) := by
  simp [startIosStreaming, h]

theorem handleConnection_existing (spawnRes : Except String Unit)
    (r : Registry) (ws : Nat) (u : String) (st : DeviceState)
    (h : lookupDev r u = some st) :
    handleConnection spawnRes r ws (some u)
      = (updDev r u { st with sockets := addSock st.sockets ws },
         if st.buffer.isEmpty then [] else [.send ws (.logBatch st.buffer)]) := by
  simp only [handleConnection, startIos_existing spawnRes r u (by simp [h]), h,
    List.nil_append]

theorem handleConnection_spawn_fail (e : String) (r : Registry) (ws : Nat)
    (u : String) (h : lookupDev r u = none) :
    handleConnection (.error e) r ws (some u)
      = (r, [.send ws (.logError e), .closeSock ws]) := by
  simp only [handleConnection, startIos_fail e r u h]
  simp

theorem handleConnection_fresh (r : Registry) (ws : Nat) (u : String)
    (h : lookupDev r u = none) :
    handleConnection (.ok ()) r ws (some u)
      = (updDev (r ++ [(u, freshState)]) u ⟨[], [], [ws]⟩, [.spawnProc u]) := by
  have hl : lookupDev (r ++ [(u, freshState)]) u = some freshState := by
    rw [lookupDev_append_of_none r _ u h]
    simp [lookupDev]
  simp only [handleConnection, startIos_fresh r u h, hl]
  simp [freshState, addSock]

theorem keysNodup_handleConnection (spawnRes : Except String Unit)
    (r : Registry) (ws : Nat) (udid? : Option String) (h : keysNodup r) :
    keysNodup (handleConnection spawnRes r ws udid?).1 := by
  match udid? with
  | none => exact h
  | some u =>
    match hl : lookupDev r u with
    | some st =>
      rw [handleConnection_existing spawnRes r ws u st hl]
      unfold keysNodup
      rw [keys_updDev]
      exact h
    | none =>
      match spawnRes with
      | .error e =>
          rw [handleConnection_spawn_fail e r ws u hl]
          exact h
      | .ok _ =>
          rw [handleConnection_fresh r ws u hl]
          unfold keysNodup
          rw [keys_updDev]
          have hmem := not_mem_keys_of_lookup_none r u hl
          simp only [List.map_append, List.map_cons, List.map_nil]
          rw [List.nodup_append]
          refine ⟨h, List.nodup_singleton u, ?_⟩
          intro a ha hb
          simp only [List.mem_singleton] at hb
          exact hmem (hb ▸ ha)

theorem keysNodup_runConns : ∀ (conns : List (Except String Unit × Nat × Option String))
    (r : Registry), keysNodup r → keysNodup (runConns r conns)
  | [], _, h => h
  | c :: cs, r, h => by
      rw [runConns, List.foldl_cons]
      exact keysNodup_runConns cs _ (keysNodup_handleConnection c.1 r c.2.1 c.2.2 h)

/-- C1 counterexample: on the session `"d"` holding line `"a"` with two
attached consumers, consumer 1's clear request leaves the shared buffer
empty, not unchanged — the stored state is no longer the pre-clear state,
so a later backlog snapshot no longer contains `"a"`. -/
theorem clear_shared_counterexample :
    lookupDev (handleClearMsg [("d", ⟨["a"], [], [1, 2]⟩)] "d" 1).1 "d"
      = some ⟨[], [], [1, 2]⟩
    ∧ lookupDev (handleClearMsg [("d", ⟨["a"], [], [1, 2]⟩)] "d" 1).1 "d"
      ≠ some ⟨["a"], [], [1, 2]⟩
    ∧ (handleClearMsg [("d", ⟨["a"], [], [1, 2]⟩)] "d" 1).2
      = [.send 1 (.logCleared "d")] := by
  refine ⟨by decide, by decide, by decide⟩

/-- C1 (amended): a clear request from a consumer empties the session's
shared ring buffer (so it affects every consumer's subsequent backlog
snapshot), leaves the pending queue and socket set intact, sends the
`cleared` acknowledgment only to the requesting consumer, and leaves every
other session untouched. -/
theorem clear_request_effect (r : Registry) (udid : String) (ws : Nat)
    (st : DeviceState) (h : lookupDev r udid = some st) :
    lookupDev (handleClearMsg r udid ws).1 udid = some { st with buffer := [] }
    ∧ (handleClearMsg r udid ws).2 = [.send ws (.logCleared udid)]
    ∧ ∀ v, v ≠ udid →
        lookupDev (handleClearMsg r udid ws).1 v = lookupDev r v := by
  constructor
  · simp only [handleClearMsg, h]
    exact lookupDev_updDev_self r udid st _ h
  constructor
  · simp [handleClearMsg, h]
  · intro v hv
    simp only [handleClearMsg, h]
    exact lookupDev_updDev_ne r udid v _ hv

/-- Witness for the amended C1 on a one-session registry. -/
theorem clear_request_effect_witness :
    (handleClearMsg [("d", ⟨["a"], [], [1]⟩)] "d" 1).2
      = [.send 1 (.logCleared "d")] :=
  (clear_request_effect [("d", ⟨["a"], [], [1]⟩)] "d" 1 ⟨["a"], [], [1]⟩
    (by decide)).2.1

/-- C3: on a batch-timer tick with every attached consumer deliverable, an
empty pending queue produces no message at all; otherwise the queue is
drained to empty, every attached consumer is sent the single batch holding
exactly the queued lines in arrival order, and the lines queued after the
drain are exactly the contents of the next batch (none lost, none doubled). -/
theorem batch_tick_drain (wsOpen : Nat → Bool) (wsBuf : Nat → Nat)
    (st : DeviceState)
    (hready : ∀ ws ∈ st.sockets, sendOk wsOpen wsBuf ws = true) :
    (st.pending = [] → batchTick wsOpen wsBuf st = (st, []))
    ∧ (st.pending ≠ [] →
        (batchTick wsOpen wsBuf st).1.pending = []
        ∧ (batchTick wsOpen wsBuf st).2
            = st.sockets.map (fun ws => .send ws (.logBatch st.pending))
        ∧ ∀ newLines : List String,
            (newLines.foldl onLine (batchTick wsOpen wsBuf st).1).pending
              = newLines) := by
  constructor
  · intro hp
    simp [batchTick, hp]
  · intro hp
    have hne : st.pending.isEmpty = false := by
      cases hst : st.pending with
      | nil => exact absurd hst hp
      | cons a l => rfl
    refine ⟨by simp [batchTick, hne], ?_, ?_⟩
    · simp only [batchTick, hne, Bool.false_eq_true, if_false]
      rw [List.filter_eq_self.mpr hready]
    · intro newLines
      rw [pending_foldl_onLine]
      simp [batchTick, hne]

/-- Witness for C3: one consumer, one pending line, delivered in one batch. -/
theorem batch_tick_drain_witness :
    (batchTick (fun _ => true) (fun _ => 0) ⟨[], ["x"], [1]⟩).2
      = [.send 1 (.logBatch ["x"])] :=
  (((batch_tick_drain (fun _ => true) (fun _ => 0) ⟨[], ["x"], [1]⟩
      (by decide)).2 (by decide)).2).1

/-- C4: the registry keeps at most one session per device id across any
sequence of connection requests, and two consumers attaching to the same
previously unseen id cause exactly one process spawn, the second attach
joining the first consumer's session. -/
theorem one_session_per_device (r : Registry)
    (conns : List (Except String Unit × Nat × Option String))
    (u : String) (w1 w2 : Nat) (hnodup : keysNodup r)
    (hu : lookupDev r u = none) :
    (∀ k : Nat, keysNodup (runConns r (conns.take k)))
    ∧ (handleConnection (.ok ()) r w1 (some u)).2
        ++ (handleConnection (.ok ())
              (handleConnection (.ok ()) r w1 (some u)).1 w2 (some u)).2
      = [.spawnProc u]
    ∧ lookupDev (handleConnection (.ok ())
        (handleConnection (.ok ()) r w1 (some u)).1 w2 (some u)).1 u
      = some ⟨[], [], addSock [w1] w2⟩ := by
  have hl : lookupDev (r ++ [(u, freshState)]) u = some freshState := by
    rw [lookupDev_append_of_none r _ u hu]
    simp [lookupDev]
  have hs1 := handleConnection_fresh r w1 u hu
  have hl1 : lookupDev (handleConnection (.ok ()) r w1 (some u)).1 u
      = some ⟨[], [], [w1]⟩ := by
    rw [hs1]
    exact lookupDev_updDev_self _ u freshState _ hl
  have hs2 := handleConnection_existing (.ok ())
    (handleConnection (.ok ()) r w1 (some u)).1 w2 u ⟨[], [], [w1]⟩ hl1
  refine ⟨fun k => keysNodup_runConns _ _ hnodup, ?_, ?_⟩
  · rw [hs2, hs1]
    simp
  · rw [hs2]
    exact lookupDev_updDev_self _ u ⟨[], [], [w1]⟩ _ hl1

/-- Witness for C4: two consumers attach to the unseen id `"d"` on an empty
registry; exactly one spawn happens. -/
theorem one_session_per_device_witness :
    (handleConnection (.ok ()) [] 1 (some "d")).2
        ++ (handleConnection (.ok ())
              (handleConnection (.ok ()) [] 1 (some "d")).1 2 (some "d")).2
      = [.spawnProc "d"] :=
  (one_session_per_device [] [] "d" 1 2 List.nodup_nil rfl).2.1

/-- C5: detaching the only consumer of a session kills the upstream
process, clears the batch timer and removes the registry entry; a detach
that leaves other consumers produces no action and only shrinks the socket
set; other sessions are untouched either way. -/
theorem detach_last_consumer (r : Registry) (udid : String) (ws : Nat)
    (st : DeviceState) (h : lookupDev r udid = some st) :
    (delSock st.sockets ws = [] →
        lookupDev (handleClose r udid ws).1 udid = none
        ∧ (handleClose r udid ws).2 = [.killProc udid, .clearTimer udid])
    ∧ (delSock st.sockets ws ≠ [] →
        (handleClose r udid ws).2 = []
        ∧ lookupDev (handleClose r udid ws).1 udid
            = some { st with sockets := delSock st.sockets ws })
    ∧ ∀ v, v ≠ udid →
        lookupDev (handleClose r udid ws).1 v = lookupDev r v := by
  by_cases hs : delSock st.sockets ws = []
  · have he : (delSock st.sockets ws).isEmpty = true := by simp [hs]
    have hcl : handleClose r udid ws
        = (delDev r udid, [.killProc udid, .clearTimer udid]) := by
      simp [handleClose, h, he]
    refine ⟨fun _ => ⟨?_, ?_⟩, fun hne => absurd hs hne, fun v hv => ?_⟩
    · rw [hcl]
      exact lookupDev_delDev_self r udid
    · rw [hcl]
    · rw [hcl]
      exact lookupDev_delDev_ne r udid v hv
  · have he : (delSock st.sockets ws).isEmpty = false := by
      cases hd : delSock st.sockets ws with
      | nil => exact absurd hd hs
      | cons a l => rfl
    have hcl : handleClose r udid ws
        = (updDev r udid { st with sockets := delSock st.sockets ws }, []) := by
      simp [handleClose, h, he]
    refine ⟨fun he2 => absurd he2 hs, fun _ => ⟨?_, ?_⟩, fun v hv => ?_⟩
    · rw [hcl]
    · rw [hcl]
      exact lookupDev_updDev_self r udid st _ h
    · rw [hcl]
      exact lookupDev_updDev_ne r udid v _ hv

/-- Witness for C5: the only consumer of session `"d"` disconnects. -/
theorem detach_last_consumer_witness :
    (handleClose [("d", ⟨[], [], [1]⟩)] "d" 1).2
      = [.killProc "d", .clearTimer "d"] :=
  ((detach_last_consumer [("d", ⟨[], [], [1]⟩)] "d" 1 ⟨[], [], [1]⟩
      (by decide)).1 (by decide)).2

/-- C6 counterexample: with pending line `"x"` and consumers 1 (saturated
at the 5 MB threshold) and 2 (fast), the tick sends the batch only to
consumer 2 and sends nothing at all to consumer 1 — no dropped-batch
condition is surfaced to the skipped consumer. -/
theorem backpressure_counterexample :
    (batchTick (fun _ => true)
        (fun ws => if ws == 1 then MAX_WS_BUFFERED else 0)
        ⟨[], ["x"], [1, 2]⟩).2
      = [.send 2 (.logBatch ["x"])]
    ∧ ∀ m : ServerMsg,
        Action.send 1 m ∉ (batchTick (fun _ => true)
          (fun ws => if ws == 1 then MAX_WS_BUFFERED else 0)
          ⟨[], ["x"], [1, 2]⟩).2 := by
  have hb : (batchTick (fun _ => true)
      (fun ws => if ws == 1 then MAX_WS_BUFFERED else 0)
      ⟨[], ["x"], [1, 2]⟩).2 = [.send 2 (.logBatch ["x"])] := by decide
  refine ⟨hb, fun m => ?_⟩
  rw [hb]
  simp

/-- C6 (amended): a batch delivery to a saturated (or non-open) consumer is
skipped silently — no message of any kind reaches that consumer for the
dropped batch — while every open, unsaturated consumer of the session still
receives the full batch; the drained queue is emptied, so the dropped batch
is never redelivered. -/
theorem backpressure_skip (wsOpen : Nat → Bool) (wsBuf : Nat → Nat)
    (st : DeviceState) (hp : st.pending ≠ []) :
    (∀ ws : Nat, sendOk wsOpen wsBuf ws = false →
        ∀ m : ServerMsg, Action.send ws m ∉ (batchTick wsOpen wsBuf st).2)
    ∧ (∀ ws ∈ st.sockets, sendOk wsOpen wsBuf ws = true →
        Action.send ws (.logBatch st.pending) ∈ (batchTick wsOpen wsBuf st).2)
    ∧ (batchTick wsOpen wsBuf st).1.pending = [] := by
  have hne : st.pending.isEmpty = false := by
    cases hst : st.pending with
    | nil => exact absurd hst hp
    | cons a l => rfl
  have h2 : (batchTick wsOpen wsBuf st).2
      = (st.sockets.filter (sendOk wsOpen wsBuf)).map
          (fun ws => .send ws (.logBatch st.pending)) := by
    simp [batchTick, hne]
  refine ⟨?_, ?_, by simp [batchTick, hne]⟩
  · intro ws hws m hmem
    rw [h2] at hmem
    simp only [List.mem_map] at hmem
    obtain ⟨w, hwf, heq⟩ := hmem
    injection heq with h1 h2m
    rw [List.mem_filter] at hwf
    rw [h1, hws] at hwf
    exact Bool.false_ne_true hwf.2
  · intro ws hmem hok
    rw [h2]
    simp only [List.mem_map]
    exact ⟨ws, List.mem_filter.mpr ⟨hmem, hok⟩, rfl⟩

/-- Witness for the amended C6: fast consumer 2 still receives the batch
dropped for saturated consumer 1. -/
theorem backpressure_skip_witness :
    Action.send 2 (.logBatch ["x"])
      ∈ (batchTick (fun _ => true)
          (fun ws => if ws == 1 then MAX_WS_BUFFERED else 0)
          ⟨[], ["x"], [1, 2]⟩).2 :=
  (backpressure_skip (fun _ => true)
      (fun ws => if ws == 1 then MAX_WS_BUFFERED else 0)
      ⟨[], ["x"], [1, 2]⟩ (by decide)).2.1 2 (by decide) (by decide)

/-- C7: when the upstream process cannot be launched, the attach fails
synchronously — the attaching socket receives the error and is closed — and
no registry entry is left for the device id: the `pm.ts` path returns the
registry unchanged (spawn throws before `devices.set`), and the `part_002`
path deletes the just-inserted entry in its `catch` block. -/
theorem spawn_failed_no_session (r : Registry) (u e : String) (ws : Nat)
    (h : lookupDev r u = none) :
    handleConnection (.error e) r ws (some u)
      = (r, [.send ws (.logError e), .closeSock ws])
    ∧ (startStreamingA (.error e) r u).1 = .error e
    ∧ (startStreamingA (.error e) r u).2.1 = r := by
  refine ⟨handleConnection_spawn_fail e r ws u h, ?_, ?_⟩
  · simp [startStreamingA, h]
  · simp only [startStreamingA, h, Option.isSome_none, Bool.false_eq_true,
      if_false]
    rw [delDev_append, delDev_of_lookup_none r u h]
    simp [delDev]

/-- Witness for C7 on an empty registry. -/
theorem spawn_failed_no_session_witness :
    handleConnection (.error "boom") [] 7 (some "d")
      = ([], [.send 7 (.logError "boom"), .closeSock 7]) :=
  (spawn_failed_no_session [] "d" "boom" 7 rfl).1

/-- C8 counterexample: on session `"d"` with one attached consumer, the
`proc.on('error')` handler delivers the error event but then tears the
session down — the registry entry is gone and the batch timer cleared — so
the session does not continue to run even though the process has not
exited. -/
theorem upstream_error_counterexample :
    Action.send 7 (.logError "boom")
      ∈ (handleProcError [("d", ⟨["a"], [], [7]⟩)] "d"
          ⟨["a"], [], [7]⟩ "boom").2
    ∧ lookupDev (handleProcError [("d", ⟨["a"], [], [7]⟩)] "d"
        ⟨["a"], [], [7]⟩ "boom").1 "d" = none
    ∧ Action.clearTimer "d"
      ∈ (handleProcError [("d", ⟨["a"], [], [7]⟩)] "d"
          ⟨["a"], [], [7]⟩ "boom").2 := by
  refine ⟨by decide, by decide, by decide⟩

/-- C8 (amended): an upstream process error is broadcast as an error event
to every currently attached consumer, and then the session is immediately
torn down: batch timer cleared, reader closed, registry entry removed. -/
theorem upstream_error_teardown (r : Registry) (udid e : String)
    (st : DeviceState) :
    (handleProcError r udid st e).2
      = st.sockets.map (fun ws => Action.send ws (.logError e))
        ++ [.clearTimer udid, .closeReader udid]
    ∧ lookupDev (handleProcError r udid st e).1 udid = none :=
  ⟨rfl, lookupDev_delDev_self r udid⟩

/-- C9 counterexample: after the process error event has already torn the
session down, the close event (which Node fires even after a failed spawn)
broadcasts again to the still-populated captured socket set: consumer 7
receives `log.error` and then also `log.stop` — two terminal events. -/
theorem double_terminal_counterexample :
    Action.send 7 (.logError "boom")
      ∈ (handleProcError [("d", ⟨[], [], [7]⟩)] "d" ⟨[], [], [7]⟩ "boom").2
    ∧ Action.send 7 (.logStop "d")
      ∈ (handleProcClose
          (handleProcError [("d", ⟨[], [], [7]⟩)] "d" ⟨[], [], [7]⟩ "boom").1
          "d" ⟨[], [], [7]⟩).2 := by
  refine ⟨by decide, by decide⟩

/-- C9 (amended): the teardown path is idempotent in its state effects — a
second teardown leaves the registry fixed, raises no error, and a teardown
by itself never sends a consumer-visible event — but when the process error
and close events both fire, each attached consumer receives two terminal
events (an error, then a stopped). -/
theorem stop_idempotent (r : Registry) (udid e : String) (st : DeviceState)
    (ws : Nat) (h : ws ∈ st.sockets) :
    (teardown (teardown r udid).1 udid).1 = (teardown r udid).1
    ∧ (∀ (r1 : Registry) (w : Nat) (m : ServerMsg),
        Action.send w m ∉ (teardown r1 udid).2)
    ∧ Action.send ws (.logError e) ∈ (handleProcError r udid st e).2
    ∧ Action.send ws (.logStop udid)
        ∈ (handleProcClose (handleProcError r udid st e).1 udid st).2 := by
  refine ⟨delDev_idem r udid, ?_, ?_, ?_⟩
  · intro r1 w m hmem
    simp [teardown] at hmem
  · simp only [handleProcError, teardown, List.mem_append, List.mem_map]
    exact Or.inl ⟨ws, h, rfl⟩
  · simp only [handleProcClose, teardown, List.mem_append, List.mem_map]
    exact Or.inl ⟨ws, h, rfl⟩

/-- Witness for the amended C9 with one attached consumer. -/
theorem stop_idempotent_witness :
    Action.send 7 (.logError "boom")
      ∈ (handleProcError [("d", ⟨[], [], [7]⟩)] "d" ⟨[], [], [7]⟩ "boom").2 :=
  (stop_idempotent [("d", ⟨[], [], [7]⟩)] "d" "boom" ⟨[], [], [7]⟩ 7
    (by decide)).2.2.1

/-- C10: a connection without a device id parameter gets exactly one error
message followed by a close; the registry is unchanged and no process spawn
occurs, whatever the spawn environment would have produced. -/
theorem missing_udid_rejected (spawnRes : Except String Unit) (r : Registry)
    (ws : Nat) :
    (handleConnection spawnRes r ws none).1 = r
    ∧ (handleConnection spawnRes r ws none).2
        = [.send ws (.errorMsg "Missing udid parameter"), .closeSock ws]
    ∧ ∀ u : String, Action.spawnProc u ∉ (handleConnection spawnRes r ws none).2 := by
  refine ⟨rfl, rfl, ?_⟩
  intro u hmem
  simp [handleConnection] at hmem

end LogRelay
